import Mathlib

/-!
Verification of the Tinker two-pass assembler.

The sources hold several drafts of the same assembler.  `src/main.c` contains
two of them: the first draft (lines 1-466, called `v1` below) and the second
draft (lines 467-1343, called `v2` below); `src/unnamed/part_003` is a third
draft (called `p3` below).  Definitions below are shallow embeddings of the C
functions, annotated with the file and line they come from.

Source lines are modelled after trimming and tokenisation: a content line is
its leading whitespace-delimited mnemonic token together with its operand
list; this matches the C code's `sscanf("%s", op)` extraction.  For lines
that survive validation, the `starts_with_ld` prefix test fires exactly on
the token `ld`, and the `starts_with_push/pop` tests fire on the tokens
`push`/`pop` -- except that the first draft's tests additionally require a
whitespace character after the mnemonic, so a bare operandless `push`/`pop`
line does not fire them; `codeLineSize` models that operand-sensitivity,
and `codeLineSize_v2` the second draft's tests, which also accept the end
of the line there.
-/

/-! ## A small machine for the emitted instructions

Only the instruction forms that occur in macro expansions are modelled.
Registers hold 64-bit unsigned values (natural numbers reduced mod `2 ^ 64`);
memory maps 64-bit addresses to 64-bit words.
-/

/-- Instruction forms occurring in the macro expansions of the drafts. -/
inductive Instr where
  /-- instruction `xor rd, rs, rt` -/
  | xorR (rd rs rt : Nat)
  /-- three-operand `addi rd, rs, imm` (v1 `expandLd`, main.c:276-291) -/
  | addi3 (rd rs : Nat) (imm : Nat)
  /-- two-operand `addi rd, imm`, i.e. `rd += imm` (v2 `expandLd`/`expandPop`) -/
  | addi2 (rd : Nat) (imm : Nat)
  /-- two-operand `subi rd, imm`, i.e. `rd -= imm` (wrapping, unsigned 64-bit) -/
  | subi2 (rd : Nat) (imm : Nat)
  /-- three-operand `subi rd, rs, imm` (p3 `expandPush`) -/
  | subi3 (rd rs : Nat) (imm : Nat)
  /-- instruction `shftli rd, imm`: logical shift left -/
  | shftli (rd : Nat) (imm : Nat)
  /-- instruction `mov (base)(off), rs`: store rs to memory at `base + off` -/
  | movStore (base : Nat) (off : Int) (rs : Nat)
  /-- instruction `mov rd, (base)(off)`: load rd from memory at `base + off` -/
  | movLoad (rd : Nat) (base : Nat) (off : Int)
deriving Repr, DecidableEq

/-- The modulus of the 64-bit registers, 2 ^ 64. -/
def wordMod : Nat := 2 ^ 64

/-- Machine state: register file and memory. -/
structure Mach where
  regs : Nat → Nat
  mem : Nat → Nat

/-- Effective address `base + off`, wrapped to 64 bits. -/
def effAddr (v : Nat) (off : Int) : Nat := (((v : Int) + off) % (wordMod : Int)).toNat

/-- Write a register (values are reduced mod 2^64). -/
def setReg (m : Mach) (r : Nat) (v : Nat) : Mach :=
  { m with regs := fun i => if i = r then v % wordMod else m.regs i }

/-- One instruction step. -/
def stepInstr (m : Mach) : Instr → Mach
  | .xorR rd rs rt => setReg m rd ((m.regs rs) ^^^ (m.regs rt))
  | .addi3 rd rs imm => setReg m rd (m.regs rs + imm)
  | .addi2 rd imm => setReg m rd (m.regs rd + imm)
  | .subi2 rd imm => setReg m rd (m.regs rd + (wordMod - imm % wordMod))
  | .subi3 rd rs imm => setReg m rd (m.regs rs + (wordMod - imm % wordMod))
  | .shftli rd imm => setReg m rd (m.regs rd <<< imm)
  | .movStore base off rs =>
      { m with mem := fun a => if a = effAddr (m.regs base) off then m.regs rs % wordMod else m.mem a }
  | .movLoad rd base off => setReg m rd (m.mem (effAddr (m.regs base) off))

/-- Run a straight-line instruction sequence. -/
def runInstrs (m : Mach) : List Instr → Mach
  | [] => m
  | i :: is => runInstrs (stepInstr m i) is

/-! ## The two `expandLd` drafts (`ld rD, L` macro) -/

/-- First-draft `expandLd` (main.c:266-292): zeroes `r0`, then alternates
`addi`/`shftli`; after the fourth 12-bit chunk it shifts by only 4. -/
def expandLd_v1 (rD : Nat) (L : Nat) : List Instr :=
  [ .xorR 0 0 0,
    .addi3 rD 0 ((L >>> 52) &&& 0xFFF),
    .shftli rD 12,
    .addi3 rD rD ((L >>> 40) &&& 0xFFF),
    .shftli rD 12,
    .addi3 rD rD ((L >>> 28) &&& 0xFFF),
    .shftli rD 12,
    .addi3 rD rD ((L >>> 16) &&& 0xFFF),
    .shftli rD 4,
    .addi3 rD rD ((L >>> 4) &&& 0xFFF),
    .shftli rD 4,
    .addi3 rD rD (L &&& 0xF) ]

/-- Second-draft `expandLd` (main.c:1000-1021): zeroes `rD` itself, then four
12-bit chunks each followed by a 12-bit shift, a fifth 12-bit chunk followed
by a 4-bit shift, and a final 4-bit chunk. -/
def expandLd_v2 (rD : Nat) (L : Nat) : List Instr :=
  [ .xorR rD rD rD,
    .addi2 rD ((L >>> 52) &&& 0xFFF),
    .shftli rD 12,
    .addi2 rD ((L >>> 40) &&& 0xFFF),
    .shftli rD 12,
    .addi2 rD ((L >>> 28) &&& 0xFFF),
    .shftli rD 12,
    .addi2 rD ((L >>> 16) &&& 0xFFF),
    .shftli rD 12,
    .addi2 rD ((L >>> 4) &&& 0xFFF),
    .shftli rD 4,
    .addi2 rD (L &&& 0xF) ]

/-- The all-zero machine state. -/
def mach0 : Mach := ⟨fun _ => 0, fun _ => 0⟩

theorem and_fff_eq_mod (n : Nat) : n &&& 0xFFF = n % 4096 := by
  have h := Nat.and_pow_two_sub_one_eq_mod n 12
  norm_num at h
  exact h

theorem and_f_eq_mod (n : Nat) : n &&& 0xF = n % 16 := by
  have h := Nat.and_pow_two_sub_one_eq_mod n 4
  norm_num at h
  exact h

/-- C1 (counterexample): executing the first-draft `expandLd` sequence for
`ld r1, 65536` from the zero state leaves `r1 = 256`, not `65536`; its
windows do not sum to 64 bits (the shift after the fourth chunk is 4). -/
theorem expandLd_v1_wrong_at_65536 :
    (runInstrs mach0 (expandLd_v1 1 65536)).regs 1 = 256 ∧ (256 : Nat) ≠ 65536 := by
  constructor
  · decide
  · decide

/-- C1 (amended): for every destination register `rD ∈ [0,31]` and every
64-bit literal `L`, executing the twelve-instruction sequence emitted by the
second-draft `expandLd` (main.c:1000-1021) — a zeroing `xor` followed by
alternating add-immediate-chunk and shift-left steps over the bit windows
52-63, 40-51, 28-39, 16-27, 4-15, 0-3 of `L` (widths 12+12+12+12+12+4 = 64),
most significant first — leaves `rD` holding exactly `L`, from any start
state. -/
theorem expandLd_v2_loads_literal (rD L : Nat) (m : Mach)
    (_hrD : rD ≤ 31) (hL : L < 2 ^ 64) :
    (runInstrs m (expandLd_v2 rD L)).regs rD = L := by
  simp only [expandLd_v2, runInstrs, stepInstr, setReg, if_pos rfl]
  simp only [Nat.xor_self, and_fff_eq_mod, and_f_eq_mod, Nat.shiftLeft_eq,
    Nat.shiftRight_eq_div_pow, wordMod]
  norm_num
  omega

/-- C1 witness: instantiate the amended theorem at `rD = 3`, `L = 2 ^ 63 + 5`. -/
theorem expandLd_v2_loads_literal_witness :
    (runInstrs mach0 (expandLd_v2 3 (2 ^ 63 + 5))).regs 3 = 2 ^ 63 + 5 :=
  expandLd_v2_loads_literal 3 (2 ^ 63 + 5) mach0 (by decide) (by norm_num)

/-! ## Structured source lines

A trimmed source line, after classification (main.c:150-176 / 914-938):
blank, comment (`;`), directive (`.code` / `.data`), label definition
(`:NAME`), or a content line given by its first whitespace-delimited token
and its operand list.
-/

/-- An operand of a content line. -/
inductive Operand where
  /-- a register token `rN` -/
  | reg (n : Nat)
  /-- a numeric literal -/
  | imm (v : Int)
  /-- a memory operand `(rBASE)(OFF)` -/
  | mem (base : Nat) (off : Int)
  /-- a label reference `:NAME` -/
  | labelRef (name : String)
deriving Repr, DecidableEq

/-- A classified source line. -/
inductive SrcLine where
  | blank
  | comment (text : String)
  /-- directive `.code` when `isCode`, else `.data` -/
  | directive (isCode : Bool)
  | labelDef (name : String)
  | content (m : String) (ops : List Operand)
deriving Repr, DecidableEq

/-- The section state (`SECTION_NONE/CODE/DATA`, main.c:147). -/
inductive Sect where
  | none | code | data
deriving Repr, DecidableEq

/-- Render an operand back to its canonical source text. -/
def renderOperand : Operand → String
  | .reg n => "r" ++ toString n
  | .imm v => toString v
  | .mem b off => "(r" ++ toString b ++ ")(" ++ toString off ++ ")"
  | .labelRef s => ":" ++ s

/-- Render an operand list, comma-separated. -/
def renderOperands : List Operand → String
  | [] => ""
  | [o] => renderOperand o
  | o :: os => renderOperand o ++ ", " ++ renderOperands os

/-- Canonical text of a content line. -/
def lineText (m : String) (ops : List Operand) : String :=
  match ops with
  | [] => m
  | _ => m ++ " " ++ renderOperands ops

/-- First 49 characters of a name: both `sscanf("%49s")` (main.c:172, 419)
and the `strncpy` into the 50-byte `label` field (main.c:25-26) keep only
the first 49 characters of a label token. -/
def trunc49 (s : String) : String := ⟨s.data.take 49⟩

/-! ## Symbol table

The drafts store labels in a `uthash` map keyed by the truncated name.
`uthash.h` itself is not among the sources, so the map behaviour is modelled
from the spec. -/

/-- Whether a key occurs in the table. -/
def hasKey : List (String × Nat) → String → Bool
  | [], _ => false
  | e :: tl, k => if e.1 = k then true else hasKey tl k

/-- Overwrite every entry carrying the key with the new address. -/
def overwriteKey : List (String × Nat) → String → Nat → List (String × Nat)
  | [], _, _ => []
  | e :: tl, k, a => if e.1 = k then (k, a) :: overwriteKey tl k a else e :: overwriteKey tl k a

/-- Modelled from the spec: `add_label` (main.c:19-29) stores the label name
truncated to 49 characters; the backing `uthash` map is not in the sources,
and the spec (§3, §9) fixes the redefinition policy to overwrite
("last write wins"). -/
def add_label (tbl : List (String × Nat)) (name : String) (addr : Nat) : List (String × Nat) :=
  let key := trunc49 name
  if hasKey tbl key then overwriteKey tbl key addr else tbl ++ [(key, addr)]

/-- Modelled from the spec: `find_label` (main.c:31-35) looks a name up in
the map; callers pass names already truncated by `sscanf("%49s")`. -/
def find_label : List (String × Nat) → String → Option Nat
  | [], _ => none
  | e :: tl, name => if e.1 = name then some e.2 else find_label tl name

/-! ## Pass 1, first draft (main.c:140-215) -/

/-- The mnemonics `is_valid_instruction_pass1` accepts (main.c:112-127). -/
def validOps : List String :=
  ["add", "addi", "sub", "subi", "mul", "div",
   "and", "or", "xor", "not", "shftr", "shftri", "shftl", "shftli",
   "br", "brr", "brnz", "call", "return", "brgt",
   "addf", "subf", "mulf", "divf",
   "mov",
   "halt",
   "in", "out", "clr", "ld", "push", "pop"]

/-- Byte size of a code-section line, first draft (main.c:186-202): `ld`
costs 48 (`starts_with_ld`, main.c:73-86, fires on the token `ld` whether
or not anything follows), `push`/`pop` cost 8, any other instruction costs
4.  The first draft's `starts_with_push`/`starts_with_pop` (main.c:88-100)
demand a whitespace character right after the mnemonic, so a bare
operandless `push`/`pop` line -- whose token is still in the catalog and so
passes validation -- falls through to the normal 4-byte case. -/
def codeLineSize (m : String) (ops : List Operand) : Nat :=
  if m = "ld" then 48
  else if m = "push" then (match ops with | [] => 4 | _ => 8)
  else if m = "pop" then (match ops with | [] => 4 | _ => 8)
  else 4

/-- Byte size of a code-section line, second draft (main.c:947-963): the
second draft's `starts_with_push`/`starts_with_pop` (main.c:572-592) accept
end-of-line as well as whitespace after the mnemonic, so `push`/`pop` cost
8 with or without operands. -/
def codeLineSize_v2 (m : String) : Nat :=
  if m = "ld" then 48 else if m = "push" then 8 else if m = "pop" then 8 else 4

/-- Byte size contributed by a line: content lines cost `codeLineSize` in
`.code`, 8 in `.data`, 0 outside any section; other lines cost 0. -/
def lineSize (sec : Sect) : SrcLine → Nat
  | .content m ops =>
      match sec with
      | .code => codeLineSize m ops
      | .data => 8
      | .none => 0
  | _ => 0

/-- Section transition of a line (main.c:161-167). -/
def updateSect (sec : Sect) : SrcLine → Sect
  | .directive true => .code
  | .directive false => .data
  | _ => sec

/-- Section state after a list of lines. -/
def sectAfter (sec : Sect) : List SrcLine → Sect
  | [] => sec
  | l :: ls => sectAfter (updateSect sec l) ls

/-- Sum of `lineSize` over a list of lines, threading the section state. -/
def sumSizes (sec : Sect) : List SrcLine → Nat
  | [] => 0
  | l :: ls => lineSize sec l + sumSizes (updateSect sec l) ls

/-- Pass 1 state: current section, program counter, symbol table. -/
structure P1State where
  sec : Sect
  pc : Nat
  table : List (String × Nat)
deriving Repr

/-- Initial Pass 1 state: no section, PC = 0x1000 (main.c:147-148). -/
def p1Init : P1State := ⟨.none, 4096, []⟩

/-- One Pass 1 step (first draft, main.c:151-212).  An invalid code-section
line makes the whole run `exit(1)` (main.c:181-185), modelled as `.error`. -/
def pass1Step (st : P1State) : SrcLine → Except Unit P1State
  | .blank => .ok st
  | .comment _ => .ok st
  | .directive d => .ok { st with sec := if d then .code else .data }
  | .labelDef name => .ok { st with table := add_label st.table name st.pc }
  | .content m ops =>
      match st.sec with
      | .code =>
          if m ∈ validOps then .ok { st with pc := st.pc + codeLineSize m ops }
          else .error ()
      | .data => .ok { st with pc := st.pc + 8 }
      | .none => .ok st

/-- Pass 1 over a line list (first draft). -/
def pass1 : P1State → List SrcLine → Except Unit P1State
  | st, [] => .ok st
  | st, l :: ls =>
      match pass1Step st l with
      | .error e => .error e
      | .ok st' => pass1 st' ls

/-! ## Pass 2, first draft (main.c:380-447) -/

/-- First label-reference operand of a line (`strchr(line, ':')`,
main.c:416). -/
def firstRef : List Operand → Option String
  | [] => none
  | .labelRef s :: _ => some s
  | _ :: rest => firstRef rest

/-- Label substitution (main.c:422-424): the line is cut at the colon and
the decimal address is appended, i.e. the first label reference is replaced
by the address and everything after it is dropped. -/
def substRef (ops : List Operand) (addr : Nat) : List Operand :=
  match ops with
  | [] => []
  | .labelRef _ :: _ => [.imm addr]
  | o :: rest => o :: substRef rest addr

/-- The mnemonics `is_macro_like` recognises (main.c:365-378). -/
def macroOps : List String := ["in", "out", "clr", "halt", "push", "pop", "ld"]

/-- Output text of the first-draft `expandPush` (main.c:239-242). -/
def expandPush_v1_lines (rD : Nat) : List String :=
  ["\tsubi r31, 8", "\tmov (r31)(0), r" ++ toString rD]

/-- Output text of the first-draft `expandPop` (main.c:245-248). -/
def expandPop_v1_lines (rD : Nat) : List String :=
  ["\tmov r" ++ toString rD ++ ", (r31)(0)", "\taddi r31, 8"]

/-- Output text of the first-draft `expandLd` (main.c:266-292). -/
def expandLd_v1_lines (rD : Nat) (L : Nat) : List String :=
  [ "\txor r0, r0, r0",
    "\taddi r" ++ toString rD ++ ", r0, " ++ toString ((L >>> 52) &&& 0xFFF),
    "\tshftli r" ++ toString rD ++ ", 12",
    "\taddi r" ++ toString rD ++ ", r" ++ toString rD ++ ", " ++ toString ((L >>> 40) &&& 0xFFF),
    "\tshftli r" ++ toString rD ++ ", 12",
    "\taddi r" ++ toString rD ++ ", r" ++ toString rD ++ ", " ++ toString ((L >>> 28) &&& 0xFFF),
    "\tshftli r" ++ toString rD ++ ", 12",
    "\taddi r" ++ toString rD ++ ", r" ++ toString rD ++ ", " ++ toString ((L >>> 16) &&& 0xFFF),
    "\tshftli r" ++ toString rD ++ ", 4",
    "\taddi r" ++ toString rD ++ ", r" ++ toString rD ++ ", " ++ toString ((L >>> 4) &&& 0xFFF),
    "\tshftli r" ++ toString rD ++ ", 4",
    "\taddi r" ++ toString rD ++ ", r" ++ toString rD ++ ", " ++ toString (L &&& 0xF) ]

/-- First-draft `parseMacro` (main.c:295-361), returning the emitted output
lines and the diagnostics.  `sscanf` patterns match prefixes, so trailing
operands beyond the expected ones are ignored; no register-range checks are
performed in this draft.  A parse failure emits a diagnostic and nothing
else; an unrecognised mnemonic is passed through with a tab. -/
def parseMacro_v1 (m : String) (ops : List Operand) : List String × List String :=
  if m = "in" then
    match ops with
    | .reg rD :: .reg rS :: _ =>
        (["\tpriv r" ++ toString rD ++ ", r" ++ toString rS ++ ", r0, 3"], [])
    | _ => ([], ["Error parsing 'in': " ++ lineText m ops])
  else if m = "out" then
    match ops with
    | .reg rD :: .reg rS :: _ =>
        (["\tpriv r" ++ toString rD ++ ", r" ++ toString rS ++ ", r0, 4"], [])
    | _ => ([], ["Error parsing 'out': " ++ lineText m ops])
  else if m = "clr" then
    match ops with
    | .reg rD :: _ =>
        (["\txor r" ++ toString rD ++ ", r" ++ toString rD ++ ", r" ++ toString rD], [])
    | _ => ([], ["Error parsing 'clr': " ++ lineText m ops])
  else if m = "halt" then (["\tpriv r0, r0, r0, 0"], [])
  else if m = "push" then
    match ops with
    | .reg rD :: _ => (expandPush_v1_lines rD, [])
    | _ => ([], ["Error parsing 'push': " ++ lineText m ops])
  else if m = "pop" then
    match ops with
    | .reg rD :: _ => (expandPop_v1_lines rD, [])
    | _ => ([], ["Error parsing 'pop': " ++ lineText m ops])
  else if m = "ld" then
    match ops with
    | .reg rD :: .imm v :: _ => (expandLd_v1_lines rD (v % (2 ^ 64 : Int)).toNat, [])
    | _ => ([], ["Error parsing 'ld': " ++ lineText m ops])
  else (["\t" ++ lineText m ops], [])

/-- One Pass 2 line (first draft, main.c:394-442): blanks, comments and
label definitions are dropped, directives are copied through, a line with a
label reference gets the reference substituted when the label is known and
is otherwise emitted verbatim with a warning, macro lines are expanded, and
anything else is passed through with a leading tab. -/
def pass2Line_v1 (tbl : List (String × Nat)) : SrcLine → List String × List String
  | .blank => ([], [])
  | .comment _ => ([], [])
  | .directive true => ([".code"], [])
  | .directive false => ([".data"], [])
  | .labelDef _ => ([], [])
  | .content m ops =>
      match firstRef ops with
      | some lbl =>
          match find_label tbl (trunc49 lbl) with
          | some addr => (["\t" ++ lineText m (substRef ops addr)], [])
          | none =>
              (["\t" ++ lineText m ops],
               ["Warning: label '" ++ trunc49 lbl ++ "' not found."])
      | none =>
          if m ∈ macroOps then parseMacro_v1 m ops
          else (["\t" ++ lineText m ops], [])

/-- Pass 2 over a line list (first draft): concatenates the per-line output
and diagnostics. -/
def pass2_v1 (tbl : List (String × Nat)) : List SrcLine → List String × List String
  | [] => ([], [])
  | l :: ls =>
      ((pass2Line_v1 tbl l).1 ++ (pass2_v1 tbl ls).1,
       (pass2Line_v1 tbl l).2 ++ (pass2_v1 tbl ls).2)

/-- The whole first-draft run (`main`, main.c:452-466): Pass 1, and only on
success Pass 2; a Pass 1 failure exits with a non-zero status before any
output is produced. -/
def assemble_v1 (lines : List SrcLine) : Except Unit (List String × List String) :=
  match pass1 p1Init lines with
  | .error e => .error e
  | .ok st => .ok (pass2_v1 st.table lines)

/-- The end-to-end example program of spec §8. -/
def exampleProgram : List SrcLine :=
  [ .directive true,
    .labelDef "START",
    .content "addi" [.reg 1, .imm 5],
    .content "push" [.reg 1],
    .content "pop" [.reg 2],
    .content "brr" [.labelRef "START"] ]


/-! ## Pass 1 invariants (first draft) -/

theorem pass1_append (st : P1State) (xs ys : List SrcLine) :
    pass1 st (xs ++ ys) =
      match pass1 st xs with
      | .error e => .error e
      | .ok st1 => pass1 st1 ys := by
  induction xs generalizing st with
  | nil => simp [pass1]
  | cons l ls ih =>
      simp only [List.cons_append, pass1]
      cases pass1Step st l with
      | error e => rfl
      | ok st1 => exact ih st1

theorem pass1Step_ok {st st' : P1State} {l : SrcLine} (h : pass1Step st l = .ok st') :
    st'.sec = updateSect st.sec l ∧ st'.pc = st.pc + lineSize st.sec l ∧
      st'.table = (match l with
        | .labelDef n => add_label st.table n st.pc
        | _ => st.table) := by
  cases l with
  | blank =>
      simp only [pass1Step, Except.ok.injEq] at h
      subst h; simp [updateSect, lineSize]
  | comment t =>
      simp only [pass1Step, Except.ok.injEq] at h
      subst h; simp [updateSect, lineSize]
  | directive d =>
      simp only [pass1Step, Except.ok.injEq] at h
      subst h; cases d <;> simp [updateSect, lineSize]
  | labelDef n =>
      simp only [pass1Step, Except.ok.injEq] at h
      subst h; simp [updateSect, lineSize]
  | content m ops =>
      cases hs : st.sec with
      | code =>
          rw [pass1Step, hs] at h
          by_cases hv : m ∈ validOps
          · rw [if_pos hv, Except.ok.injEq] at h
            subst h; simp [updateSect, lineSize, hs]
          · rw [if_neg hv] at h; exact absurd h (by simp)
      | data =>
          rw [pass1Step, hs] at h
          rw [Except.ok.injEq] at h
          subst h; simp [updateSect, lineSize, hs]
      | none =>
          rw [pass1Step, hs] at h
          rw [Except.ok.injEq] at h
          subst h; simp [updateSect, lineSize, hs]

theorem pass1_ok_invariant (ls : List SrcLine) :
    ∀ st st', pass1 st ls = .ok st' →
      st'.sec = sectAfter st.sec ls ∧ st'.pc = st.pc + sumSizes st.sec ls := by
  induction ls with
  | nil =>
      intro st st' h
      simp only [pass1, Except.ok.injEq] at h
      subst h; simp [sectAfter, sumSizes]
  | cons l tl ih =>
      intro st st' h
      simp only [pass1] at h
      cases hstep : pass1Step st l with
      | error e => rw [hstep] at h; exact absurd h (by simp)
      | ok st1 =>
          rw [hstep] at h
          obtain ⟨h1, h2⟩ := ih st1 st' h
          obtain ⟨hsec, hpc, -⟩ := pass1Step_ok hstep
          refine ⟨?_, ?_⟩
          · rw [h1, hsec, sectAfter]
          · rw [h2, hpc, sumSizes, hsec]
            omega

/-! ## Symbol table lemmas -/

theorem find_label_overwriteKey_self (tbl : List (String × Nat)) (k : String) (a : Nat)
    (h : hasKey tbl k = true) : find_label (overwriteKey tbl k a) k = some a := by
  induction tbl with
  | nil => simp [hasKey] at h
  | cons e tl ih =>
      by_cases he : e.1 = k
      · simp [overwriteKey, he, find_label]
      · rw [hasKey, if_neg he] at h
        simp [overwriteKey, he, find_label, ih h]

theorem find_label_overwriteKey_ne (tbl : List (String × Nat)) (k : String) (a : Nat)
    (k' : String) (h : k' ≠ k) :
    find_label (overwriteKey tbl k a) k' = find_label tbl k' := by
  have hk : ¬ (k = k') := fun hk => h hk.symm
  induction tbl with
  | nil => simp [overwriteKey]
  | cons e tl ih =>
      by_cases he : e.1 = k
      · rw [overwriteKey, if_pos he]
        by_cases he2 : e.1 = k'
        · exact absurd (he ▸ he2) hk
        · rw [find_label, if_neg hk, find_label, if_neg he2]
          exact ih
      · rw [overwriteKey, if_neg he]
        by_cases he2 : e.1 = k'
        · rw [find_label, if_pos he2, find_label, if_pos he2]
        · rw [find_label, if_neg he2, find_label, if_neg he2]
          exact ih

theorem hasKey_false_find (tbl : List (String × Nat)) (k : String)
    (h : hasKey tbl k = false) : find_label tbl k = none := by
  induction tbl with
  | nil => rfl
  | cons e tl ih =>
      by_cases he : e.1 = k
      · rw [hasKey, if_pos he] at h; exact absurd h (by simp)
      · rw [hasKey, if_neg he] at h
        rw [find_label, if_neg he]
        exact ih h

theorem find_label_append (t1 t2 : List (String × Nat)) (k : String) :
    find_label (t1 ++ t2) k =
      match find_label t1 k with
      | some a => some a
      | none => find_label t2 k := by
  induction t1 with
  | nil => simp [find_label]
  | cons e tl ih =>
      by_cases he : e.1 = k
      · simp only [List.cons_append, find_label, if_pos he]
      · simp only [List.cons_append, find_label, if_neg he]
        exact ih

theorem find_label_add_self (tbl : List (String × Nat)) (n : String) (a : Nat) :
    find_label (add_label tbl n a) (trunc49 n) = some a := by
  rw [add_label]
  by_cases h : hasKey tbl (trunc49 n) = true
  · rw [if_pos h]
    exact find_label_overwriteKey_self tbl (trunc49 n) a h
  · rw [if_neg h]
    rw [find_label_append, hasKey_false_find tbl (trunc49 n) (by simpa using h)]
    simp [find_label]

theorem find_label_add_ne (tbl : List (String × Nat)) (n : String) (a : Nat)
    (k : String) (h : k ≠ trunc49 n) :
    find_label (add_label tbl n a) k = find_label tbl k := by
  rw [add_label]
  by_cases hk : hasKey tbl (trunc49 n) = true
  · rw [if_pos hk]
    exact find_label_overwriteKey_ne tbl (trunc49 n) a k h
  · rw [if_neg hk, find_label_append]
    cases hf : find_label tbl k with
    | some b => rfl
    | none =>
        rw [find_label, if_neg (Ne.symm h), find_label]

theorem pass1_find_preserved (ls : List SrcLine) :
    ∀ st st' k, pass1 st ls = .ok st' →
      (∀ n, SrcLine.labelDef n ∈ ls → k ≠ trunc49 n) →
      find_label st'.table k = find_label st.table k := by
  induction ls with
  | nil =>
      intro st st' k h _
      simp only [pass1, Except.ok.injEq] at h
      subst h; rfl
  | cons l tl ih =>
      intro st st' k h hdefs
      simp only [pass1] at h
      cases hstep : pass1Step st l with
      | error e => rw [hstep] at h; exact absurd h (by simp)
      | ok st1 =>
          rw [hstep] at h
          have htail := ih st1 st' k h (fun n hn => hdefs n (List.mem_cons_of_mem _ hn))
          rw [htail]
          obtain ⟨-, -, htbl⟩ := pass1Step_ok hstep
          cases l with
          | labelDef n =>
              rw [htbl]
              exact find_label_add_ne st.table n st.pc k
                (hdefs n (List.mem_cons_self _ _))
          | blank => rw [htbl]
          | comment t => rw [htbl]
          | directive d => rw [htbl]
          | content m ops => rw [htbl]

/-- C3: for every label defined in the source, the address Pass 1 records
for it equals the base address 4096 plus the sum of the size model's byte
counts over all content lines preceding the definition (blank, comment,
directive and label-definition lines contribute zero, and the defining line
itself adds nothing), provided Pass 1 succeeds and no later definition
reuses the same (49-character-truncated) name. -/
theorem label_address_is_prefix_sum (pre post : List SrcLine) (name : String)
    (st' : P1State)
    (h : pass1 p1Init (pre ++ SrcLine.labelDef name :: post) = .ok st')
    (hpost : ∀ n, SrcLine.labelDef n ∈ post → trunc49 name ≠ trunc49 n) :
    find_label st'.table (trunc49 name) = some (4096 + sumSizes Sect.none pre) := by
  rw [pass1_append] at h
  cases hpre : pass1 p1Init pre with
  | error e => rw [hpre] at h; exact absurd h (by simp)
  | ok st1 =>
      rw [hpre] at h
      simp only [pass1, pass1Step] at h
      have hfind := pass1_find_preserved post _ st' (trunc49 name) h hpost
      have hinv := pass1_ok_invariant pre p1Init st1 hpre
      rw [hfind]
      show find_label (add_label st1.table name st1.pc) (trunc49 name) = _
      rw [find_label_add_self, hinv.2]
      rfl

/-- C3 witness: a one-instruction program; the label defined after `.code`
and one `add` line is recorded at 4096 + 4. -/
theorem label_address_is_prefix_sum_witness :
    find_label (P1State.table ⟨Sect.code, 4100, [(trunc49 "L", 4100)]⟩) (trunc49 "L") =
      some (4096 + sumSizes Sect.none
        [SrcLine.directive true, SrcLine.content "add" [Operand.reg 1]]) :=
  label_address_is_prefix_sum
    [SrcLine.directive true, SrcLine.content "add" [Operand.reg 1]] [] "L"
    ⟨Sect.code, 4100, [(trunc49 "L", 4100)]⟩ rfl (by simp)

/-- C7: any input whose code section contains a content line with an
unrecognised mnemonic makes Pass 1 fail, which terminates the run with a
non-zero exit before Pass 2 produces any output (main.c:181-185, 452-466). -/
theorem unrecognized_mnemonic_aborts (pre post : List SrcLine) (m : String)
    (ops : List Operand)
    (hsec : sectAfter Sect.none pre = Sect.code)
    (hm : m ∉ validOps) :
    assemble_v1 (pre ++ SrcLine.content m ops :: post) = .error () := by
  unfold assemble_v1
  rw [pass1_append]
  cases hpre : pass1 p1Init pre with
  | error e => rfl
  | ok st1 =>
      have h1 := (pass1_ok_invariant pre p1Init st1 hpre).1
      have hcode : st1.sec = Sect.code := by rw [h1]; exact hsec
      simp only [pass1, pass1Step, hcode, if_neg hm]

/-- C7 witness: `.code` followed by mnemonic `foo` aborts the run. -/
theorem unrecognized_mnemonic_aborts_witness :
    assemble_v1 [SrcLine.directive true, SrcLine.content "foo" []] = .error () :=
  unrecognized_mnemonic_aborts [SrcLine.directive true] [] "foo" [] rfl (by decide)

/-- C9: a Pass 2 line referencing a label absent from the symbol table
emits a diagnostic and is written to the output verbatim (with the `:name`
reference token intact, not replaced by zero or any address), and the run
continues with the remaining lines (main.c:427-432). -/
theorem unresolved_reference_passthrough (tbl : List (String × Nat)) (m : String)
    (ops : List Operand) (lbl : String) (rest : List SrcLine)
    (href : firstRef ops = some lbl)
    (hmiss : find_label tbl (trunc49 lbl) = none) :
    pass2_v1 tbl (SrcLine.content m ops :: rest) =
      (("\t" ++ lineText m ops) :: (pass2_v1 tbl rest).1,
       ("Warning: label '" ++ trunc49 lbl ++ "' not found.") :: (pass2_v1 tbl rest).2) := by
  simp [pass2_v1, pass2Line_v1, href, hmiss]

/-- C9 witness: `brr :END` with an empty symbol table passes through with a
warning. -/
theorem unresolved_reference_passthrough_witness :
    pass2_v1 [] [SrcLine.content "brr" [Operand.labelRef "END"]] =
      (["\tbrr :END"], ["Warning: label 'END' not found."]) :=
  unresolved_reference_passthrough [] "brr" [Operand.labelRef "END"] "END" [] rfl rfl

/-- C2 (counterexample): on the spec §8 example program, the first-draft
Pass 2 substitutes the label's absolute address into the `brr` line: the
emitted line is `brr 4096`, not a relative offset `brr -16`. -/
theorem brr_gets_absolute_address_v1 :
    assemble_v1 exampleProgram =
      .ok ([".code", "\taddi r1, 5",
            "\tsubi r31, 8", "\tmov (r31)(0), r1",
            "\tmov r2, (r31)(0)", "\taddi r31, 8",
            "\tbrr 4096"], []) ∧ ("\tbrr 4096" : String) ≠ "\tbrr -16" :=
  ⟨rfl, by decide⟩

/-- C4 (counterexample): in the first draft, an `ld` whose operand is a
label reference is captured by Pass 2's label-substitution path and emitted
as a single unexpanded line (4 bytes), while Pass 1's size model adds 48
bytes for the same line. -/
theorem ld_label_line_not_expanded_v1 :
    pass2_v1 [("L", 4096)] [SrcLine.content "ld" [Operand.reg 5, Operand.labelRef "L"]] =
      (["\tld r5, 4096"], []) ∧
    lineSize Sect.code (SrcLine.content "ld" [Operand.reg 5, Operand.labelRef "L"]) = 48 ∧
    4 * 1 ≠ 48 :=
  ⟨rfl, rfl, by decide⟩

/-! ## part_003: relative-branch resolution in Pass 2 -/

/-- Function `check_signed12` (part_003:120-122). -/
def check_signed12 (v : Int) : Bool := decide (-2048 ≤ v) && decide (v ≤ 2047)

/-- Offset computation of part_003's Pass 2 for the relative-branch family
(part_003:435-439): `target - lineAddress`, negated for a directional
variant mnemonic whose sign disagrees. -/
def brrOffset_p3 (m : String) (target lineAddress : Int) : Int :=
  let offset := target - lineAddress
  if m = "brr_l" ∧ offset > 0 then -offset
  else if m = "brr_r" ∧ offset < 0 then -offset
  else offset

/-- Label-reference resolution of part_003's Pass 2 (part_003:423-452) for a
code-section, non-macro line with mnemonic `m` at address `lineAddress`
referring to label `lbl`: for the `brr` family the relative offset is
substituted after the signed-12-bit check (a failed check `exit(1)`s, the
`.error` case); any other mnemonic gets the absolute address; an unknown
label passes the line through unchanged (`none`).  part_003's pass2 reads
the label token with an unbounded `%s` (part_003:428), so no truncation
happens here. -/
def resolveRef_p3 (m : String) (lineAddress : Int) (tbl : List (String × Nat))
    (lbl : String) : Except Unit (Option Int) :=
  match find_label tbl lbl with
  | Option.some target =>
      if m = "brr" ∨ m = "brr_l" ∨ m = "brr_r" then
        let offset := brrOffset_p3 m (target : Int) lineAddress
        if check_signed12 offset then .ok (some offset) else .error ()
      else .ok (some (target : Int))
  | Option.none => .ok none

/-- C2 (amended): in the draft that implements relative branching
(part_003's Pass 2), a `brr` line whose operand references a defined label
is substituted with `target_address - address_of_this_instruction` — not
the label's absolute address — after the difference passes the signed
12-bit range check.  The first main.c draft instead substitutes the
absolute address into `brr` lines (counterexample: the spec §8 example
emits `brr 4096`), and part_003's own Pass 1 rejects the example's
`brr :START` line, so no draft produces the `-16` of the claim. -/
theorem brr_relative_offset_p3 (lineAddress : Int) (tbl : List (String × Nat))
    (lbl : String) (target : Nat)
    (hfound : find_label tbl lbl = some target)
    (hlo : -2048 ≤ (target : Int) - lineAddress)
    (hhi : (target : Int) - lineAddress ≤ 2047) :
    resolveRef_p3 "brr" lineAddress tbl lbl = .ok (some ((target : Int) - lineAddress)) := by
  have hoff : brrOffset_p3 "brr" (target : Int) lineAddress = (target : Int) - lineAddress := by
    rw [brrOffset_p3]
    rw [if_neg (by simp), if_neg (by simp)]
  simp [resolveRef_p3, hfound, hoff, check_signed12, hlo, hhi]

/-- C2 witness: with `START = 4096` and the branch line at address 4116
(where the example program's `brr` actually sits), the emitted offset is
`4096 - 4116 = -20`. -/
theorem brr_relative_offset_p3_witness :
    resolveRef_p3 "brr" 4116 [("START", 4096)] "START" =
      .ok (some ((4096 : Int) - 4116)) :=
  brr_relative_offset_p3 4116 [("START", 4096)] "START" 4096 rfl (by norm_num) (by norm_num)

/-! ## push / pop expansions as instruction lists -/

/-- First-draft `expandPush` (main.c:239-242): decrement `r31` by 8, then
store `rD` at the new top of stack. -/
def expandPush_v1 (rD : Nat) : List Instr := [.subi2 31 8, .movStore 31 0 rD]

/-- First-draft `expandPop` (main.c:245-248): load `rD` from the top of
stack, then increment `r31` by 8. -/
def expandPop_v1 (rD : Nat) : List Instr := [.movLoad rD 31 0, .addi2 31 8]

/-- part_003's `expandPush` (part_003:207-210): its first instruction is
`mov rD, r31(0)` — the load form, reading memory into `rD` — so nothing is
ever stored; then `subi r31, r31, 8`. -/
def expandPush_p3 (rD : Nat) : List Instr := [.movLoad rD 31 0, .subi3 31 31 8]

/-- part_003's `expandPop` (part_003:212-215): `mov rD, r31(0)` then
`addi r31, r31, 8`. -/
def expandPop_p3 (rD : Nat) : List Instr := [.movLoad rD 31 0, .addi3 31 31 8]

/-- A concrete machine state for the push/pop round-trip check:
`r3 = 7`, `r31 = 4096`, all other registers and all memory zero. -/
def machC5 : Mach :=
  ⟨fun i => if i = 3 then 7 else if i = 31 then 4096 else 0, fun _ => 0⟩

theorem effAddr_zero (v : Nat) : effAddr v 0 = v % wordMod := by
  simp only [effAddr, wordMod]
  omega

/-- C5: the first-draft expansions round-trip — running `push rD` then
`pop rD` (main.c:239-248) restores both `rD` and the stack pointer `r31`
(to their 64-bit values) from any start state, because `pop` inverts `push`
exactly (adjust-then-store vs load-then-adjust at the same address with the
same 8-byte offset).  part_003's expansions (part_003:207-215) do not:
its `push` never stores (`mov r3, r31(0)` is the load form), so from
`r3 = 7`, `r31 = 4096`, zeroed memory, the pair leaves `r3 = 0`. -/
theorem push_pop_round_trip :
    (∀ (m : Mach) (rD : Nat),
      (runInstrs m (expandPush_v1 rD ++ expandPop_v1 rD)).regs rD = m.regs rD % wordMod ∧
      (runInstrs m (expandPush_v1 rD ++ expandPop_v1 rD)).regs 31 = m.regs 31 % wordMod) ∧
    ((runInstrs machC5 (expandPush_p3 3 ++ expandPop_p3 3)).regs 3 = 0 ∧
      machC5.regs 3 = 7 ∧
      (runInstrs machC5 (expandPush_p3 3 ++ expandPop_p3 3)).regs 31 = 4096) := by
  constructor
  · intro m rD
    by_cases h : rD = 31
    · subst h
      constructor <;> simp [expandPush_v1, expandPop_v1, runInstrs, stepInstr,
        setReg, effAddr_zero, wordMod] <;> omega
    · have h' : ¬ ((31 : Nat) = rD) := fun hh => h hh.symm
      constructor <;> simp [expandPush_v1, expandPop_v1, runInstrs, stepInstr,
        setReg, effAddr_zero, wordMod, h, h'] <;> omega
  · refine ⟨by decide, by decide, by decide⟩

/-! ## The 12-bit immediate parsers (second draft, main.c:537-555) -/

/-- Function `parse_signed_12_bit` (main.c:537-545): `strtol` then range check.
`strtol` clamps an out-of-`long`-range literal and sets `ERANGE`, which the
code also rejects, so acceptance is exactly the range `[-2048, 2047]`. -/
def parse_signed_12_bit (v : Int) : Option Int :=
  if v < -2048 ∨ v > 2047 then none else some v

/-- Function `parse_unsigned_12_bit` (main.c:547-555): `strtoul` then `val > 4095`
check.  `strtoul` sets `ERANGE` exactly when the literal's magnitude
exceeds `ULONG_MAX` (rejected by the code); within that range a negative
literal is converted by negation in `unsigned long`, i.e. modulo `2 ^ 64`
(C17 7.22.1.4), so the value the range check sees is `v mod 2 ^ 64`. -/
def parse_unsigned_12_bit (v : Int) : Option Int :=
  if v ≤ -(2 ^ 64) ∨ 2 ^ 64 ≤ v then none
  else if v % (2 ^ 64) > 4095 then none else some (v % (2 ^ 64))

/-- C6 (counterexample): the unsigned parser accepts the negative literal
`4095 - 2 ^ 64` because `strtoul` wraps it to `4095`, contradicting
"accepts v if and only if 0 ≤ v ≤ 4095". -/
theorem parse_unsigned_accepts_negative :
    (parse_unsigned_12_bit (4095 - 2 ^ 64)).isSome = true ∧ (4095 - 2 ^ 64 : Int) < 0 := by
  constructor
  · norm_num [parse_unsigned_12_bit]
  · norm_num

/-- C6 (amended): the signed 12-bit parser accepts `v` iff
`-2048 ≤ v ≤ 2047` (so 2047 and -2048 are accepted, 2048 and -2049
rejected); the unsigned 12-bit parser accepts a nonnegative `v` iff
`v ≤ 4095` (so 4095 is accepted and 4096 rejected), but, because of the
`strtoul` wraparound, it also accepts any negative `v` with
`-2 ^ 64 < v` and `v + 2 ^ 64 ≤ 4095`. -/
theorem parse_12_bit_ranges (v : Int) :
    ((parse_signed_12_bit v).isSome ↔ (-2048 ≤ v ∧ v ≤ 2047)) ∧
    ((parse_unsigned_12_bit v).isSome ↔
      ((0 ≤ v ∧ v ≤ 4095) ∨ (-(2 ^ 64) < v ∧ v < 0 ∧ v + 2 ^ 64 ≤ 4095))) := by
  constructor
  · rw [parse_signed_12_bit]
    split_ifs with h <;> simp <;> omega
  · rw [parse_unsigned_12_bit]
    split_ifs with h1 h2 <;> simp <;> omega

/-! ## Pass 1 validators, second draft (main.c:599-900) -/

/-- Function `validate_brr` (main.c:599-623): a register operand is checked to lie
in [0,31]; any other operand text goes through `parse_signed_12_bit`, and
`strtol` reads 0 from a non-numeric token (label reference or memory
operand), which passes the range check.  A missing operand fails. -/
def validate_brr (ops : List Operand) : Bool :=
  match ops with
  | [] => false
  | .reg rd :: _ => decide (rd ≤ 31)
  | .imm v :: _ => (parse_signed_12_bit v).isSome
  | .labelRef _ :: _ => true
  | .mem _ _ :: _ => true

/-- Function `validate_mov` (main.c:633-810): the four mov shapes with register
range checks, signed-12-bit memory offsets and an unsigned-12-bit literal;
`strtoul` reads 0 from a label token, which passes. -/
def validate_mov (ops : List Operand) : Bool :=
  match ops with
  | .mem rd off :: .reg rs :: _ =>
      decide (rs ≤ 31) && decide (rd ≤ 31) && (parse_signed_12_bit off).isSome
  | .mem _ _ :: _ => false
  | .reg rd :: .reg rs :: _ => decide (rd ≤ 31) && decide (rs ≤ 31)
  | .reg rd :: .mem rs off :: _ =>
      decide (rd ≤ 31) && decide (rs ≤ 31) && (parse_signed_12_bit off).isSome
  | .reg rd :: .imm v :: _ => decide (rd ≤ 31) && (parse_unsigned_12_bit v).isSome
  | .reg rd :: .labelRef _ :: _ => decide (rd ≤ 31)
  | _ => false

/-- Function `validate_instruction_immediate` (main.c:816-849): only the
`addi/subi/shftri/shftli` family is judged — register destination in
[0,31] and an immediate accepted by `parse_unsigned_12_bit` (`strtoul`
reads 0 from a non-numeric second operand, which passes); with fewer than
two tokens the function returns valid.  Every other mnemonic passes. -/
def validate_instruction_immediate (m : String) (ops : List Operand) : Bool :=
  if m = "addi" ∨ m = "subi" ∨ m = "shftri" ∨ m = "shftli" then
    match ops with
    | [] => true
    | [_] => false
    | .reg rd :: o :: _ =>
        decide (rd ≤ 31) &&
          (match o with
           | .imm v => (parse_unsigned_12_bit v).isSome
           | _ => true)
    | _ => false
  else true

/-- Function `is_valid_instruction_pass1`, second draft (main.c:854-900): mnemonic
catalog membership, then the specialised validators. -/
def is_valid_instruction_v2 (m : String) (ops : List Operand) : Bool :=
  if m ∈ validOps then
    if m = "brr" then validate_brr ops
    else if m = "mov" then validate_mov ops
    else validate_instruction_immediate m ops
  else false

/-- One Pass 1 step, second draft (main.c:915-968): as the first draft but
with the specialised validators. -/
def pass1Step_v2 (st : P1State) : SrcLine → Except Unit P1State
  | .blank => .ok st
  | .comment _ => .ok st
  | .directive d => .ok { st with sec := if d then .code else .data }
  | .labelDef name => .ok { st with table := add_label st.table name st.pc }
  | .content m ops =>
      match st.sec with
      | .code =>
          if is_valid_instruction_v2 m ops then .ok { st with pc := st.pc + codeLineSize_v2 m }
          else .error ()
      | .data => .ok { st with pc := st.pc + 8 }
      | .none => .ok st

/-- Pass 1 over a line list (second draft). -/
def pass1_v2 : P1State → List SrcLine → Except Unit P1State
  | st, [] => .ok st
  | st, l :: ls =>
      match pass1Step_v2 st l with
      | .error e => .error e
      | .ok st' => pass1_v2 st' ls

/-! ## Pass 2, second draft (main.c:976-1324) -/

/-- Output text of the second-draft `expandPush` (main.c:988-991). -/
def expandPush_v2_lines (rD : Nat) : List String :=
  ["\tmov (r31)(-8), r" ++ toString rD, "\tsubi r31, 8"]

/-- Output text of the second-draft `expandPop` (main.c:992-995). -/
def expandPop_v2_lines (rD : Nat) : List String :=
  ["\tmov r" ++ toString rD ++ ", (r31)(0)", "\taddi r31, 8"]

/-- Output text of the second-draft `expandLd` (main.c:1000-1021). -/
def expandLd_v2_lines (rD : Nat) (L : Nat) : List String :=
  [ "\txor r" ++ toString rD ++ ", r" ++ toString rD ++ ", r" ++ toString rD,
    "\taddi r" ++ toString rD ++ ", " ++ toString ((L >>> 52) &&& 0xFFF),
    "\tshftli r" ++ toString rD ++ ", 12",
    "\taddi r" ++ toString rD ++ ", " ++ toString ((L >>> 40) &&& 0xFFF),
    "\tshftli r" ++ toString rD ++ ", 12",
    "\taddi r" ++ toString rD ++ ", " ++ toString ((L >>> 28) &&& 0xFFF),
    "\tshftli r" ++ toString rD ++ ", 12",
    "\taddi r" ++ toString rD ++ ", " ++ toString ((L >>> 16) &&& 0xFFF),
    "\tshftli r" ++ toString rD ++ ", 12",
    "\taddi r" ++ toString rD ++ ", " ++ toString ((L >>> 4) &&& 0xFFF),
    "\tshftli r" ++ toString rD ++ ", 4",
    "\taddi r" ++ toString rD ++ ", " ++ toString (L &&& 0xF) ]

/-- Characters the second-draft `ld` regex admits in its operand
(`[0-9a-fA-FxX:]`, main.c:1039). -/
def ldOperandChar (c : Char) : Bool :=
  c.isDigit || (decide ('a' ≤ c) && decide (c ≤ 'f')) ||
    (decide ('A' ≤ c) && decide (c ≤ 'F')) || c = 'x' || c = 'X' || c = ':'

/-- Second-draft `parseMacro` (main.c:1027-1237).  Each macro is matched by
an anchored regex, so the operand shape must be exact; the register range
is then checked, and an out-of-range register or any parse failure prints a
diagnostic, emits nothing, and returns — the run continues.  An `ld`
operand must be numeric (digits/hex) or a label made of the regex's
character class; a label is looked up un-truncated, and `strtoull` rejects
numbers of 64 bits or more with `ERANGE`. -/
def parseMacro_v2 (tbl : List (String × Nat)) (m : String) (ops : List Operand) :
    List String × List String :=
  if m = "ld" then
    match ops with
    | [.reg rD, .imm v] =>
        if 0 ≤ v then
          if rD ≤ 31 then
            if v < 2 ^ 64 then (expandLd_v2_lines rD v.toNat, [])
            else ([], ["Error: 'ld' immediate out of 64-bit range => " ++ toString v])
          else ([], ["Error: register out of range in ld => r" ++ toString rD])
        else ([], ["Error parsing ld macro: " ++ lineText m ops])
    | [.reg rD, .labelRef lbl] =>
        if lbl.data.all ldOperandChar then
          if rD ≤ 31 then
            match find_label tbl lbl with
            | some a => (expandLd_v2_lines rD a, [])
            | none => ([], ["Error: label " ++ lbl ++ " not found"])
          else ([], ["Error: register out of range in ld => r" ++ toString rD])
        else ([], ["Error parsing ld macro: " ++ lineText m ops])
    | _ => ([], ["Error parsing ld macro: " ++ lineText m ops])
  else if m = "push" then
    match ops with
    | [.reg rD] =>
        if rD ≤ 31 then (expandPush_v2_lines rD, [])
        else ([], ["Error: register out of range in push => " ++ lineText m ops])
    | _ => ([], ["Error parsing push macro: " ++ lineText m ops])
  else if m = "pop" then
    match ops with
    | [.reg rD] =>
        if rD ≤ 31 then (expandPop_v2_lines rD, [])
        else ([], ["Error: register out of range in pop => " ++ lineText m ops])
    | _ => ([], ["Error parsing pop macro: " ++ lineText m ops])
  else if m = "in" then
    match ops with
    | [.reg rD, .reg rS] =>
        if rD ≤ 31 ∧ rS ≤ 31 then
          (["\tpriv r" ++ toString rD ++ ", r" ++ toString rS ++ ", r0, 3"], [])
        else ([], ["Error: register out of range in 'in': " ++ lineText m ops])
    | _ => ([], ["Error parsing in macro: " ++ lineText m ops])
  else if m = "out" then
    match ops with
    | [.reg rD, .reg rS] =>
        if rD ≤ 31 ∧ rS ≤ 31 then
          (["\tpriv r" ++ toString rD ++ ", r" ++ toString rS ++ ", r0, 4"], [])
        else ([], ["Error: register out of range in 'out': " ++ lineText m ops])
    | _ => ([], ["Error parsing out macro: " ++ lineText m ops])
  else if m = "clr" then
    match ops with
    | [.reg rD] =>
        if rD ≤ 31 then
          (["\txor r" ++ toString rD ++ ", r" ++ toString rD ++ ", r" ++ toString rD], [])
        else ([], ["Error: register out of range in clr => " ++ lineText m ops])
    | _ => ([], ["Error parsing clr macro: " ++ lineText m ops])
  else if m = "halt" then
    match ops with
    | [] => (["\tpriv r0, r0, r0, 0"], [])
    | _ => ([], ["Error parsing halt macro: " ++ lineText m ops])
  else (["\t" ++ lineText m ops], [])

/-- One Pass 2 line, second draft (main.c:1272-1320): like the first draft,
except that after a successful label substitution the resulting line is
re-examined by `is_macro_line` and, if it is a macro, dispatched to
`parseMacro` (main.c:1301-1305). -/
def pass2Line_v2 (tbl : List (String × Nat)) : SrcLine → List String × List String
  | .blank => ([], [])
  | .comment _ => ([], [])
  | .directive true => ([".code"], [])
  | .directive false => ([".data"], [])
  | .labelDef _ => ([], [])
  | .content m ops =>
      match firstRef ops with
      | some lbl =>
          match find_label tbl (trunc49 lbl) with
          | some addr =>
              if m ∈ macroOps then parseMacro_v2 tbl m (substRef ops addr)
              else (["\t" ++ lineText m (substRef ops addr)], [])
          | none =>
              (["\t" ++ lineText m ops],
               ["Warning: label '" ++ trunc49 lbl ++ "' not found."])
      | none =>
          if m ∈ macroOps then parseMacro_v2 tbl m ops
          else (["\t" ++ lineText m ops], [])

/-- Pass 2 over a line list (second draft). -/
def pass2_v2 (tbl : List (String × Nat)) : List SrcLine → List String × List String
  | [] => ([], [])
  | l :: ls =>
      ((pass2Line_v2 tbl l).1 ++ (pass2_v2 tbl ls).1,
       (pass2Line_v2 tbl l).2 ++ (pass2_v2 tbl ls).2)

/-- The whole second-draft run (`main`, main.c:1331-1343). -/
def assemble_v2 (lines : List SrcLine) : Except Unit (List String × List String) :=
  match pass1_v2 p1Init lines with
  | .error e => .error e
  | .ok st => .ok (pass2_v2 st.table lines)

theorem pass1_v2_append (st : P1State) (xs ys : List SrcLine) :
    pass1_v2 st (xs ++ ys) =
      match pass1_v2 st xs with
      | .error e => .error e
      | .ok st1 => pass1_v2 st1 ys := by
  induction xs generalizing st with
  | nil => simp [pass1_v2]
  | cons l ls ih =>
      simp only [List.cons_append, pass1_v2]
      cases pass1Step_v2 st l with
      | error e => rfl
      | ok st1 => exact ih st1

theorem pass1Step_v2_ok_sec {st st' : P1State} {l : SrcLine}
    (h : pass1Step_v2 st l = .ok st') : st'.sec = updateSect st.sec l := by
  cases l with
  | blank =>
      simp only [pass1Step_v2, Except.ok.injEq] at h
      subst h; simp [updateSect]
  | comment t =>
      simp only [pass1Step_v2, Except.ok.injEq] at h
      subst h; simp [updateSect]
  | directive d =>
      simp only [pass1Step_v2, Except.ok.injEq] at h
      subst h; cases d <;> simp [updateSect]
  | labelDef n =>
      simp only [pass1Step_v2, Except.ok.injEq] at h
      subst h; simp [updateSect]
  | content m ops =>
      cases hs : st.sec with
      | code =>
          rw [pass1Step_v2, hs] at h
          by_cases hv : is_valid_instruction_v2 m ops = true
          · rw [if_pos hv, Except.ok.injEq] at h
            subst h; simp [updateSect, hs]
          · rw [if_neg hv] at h; exact absurd h (by simp)
      | data =>
          rw [pass1Step_v2, hs] at h
          rw [Except.ok.injEq] at h
          subst h; simp [updateSect, hs]
      | none =>
          rw [pass1Step_v2, hs] at h
          rw [Except.ok.injEq] at h
          subst h; simp [updateSect, hs]

theorem pass1_v2_ok_sec (ls : List SrcLine) :
    ∀ st st', pass1_v2 st ls = .ok st' → st'.sec = sectAfter st.sec ls := by
  induction ls with
  | nil =>
      intro st st' h
      simp only [pass1_v2, Except.ok.injEq] at h
      subst h; rfl
  | cons l tl ih =>
      intro st st' h
      simp only [pass1_v2] at h
      cases hstep : pass1Step_v2 st l with
      | error e => rw [hstep] at h; exact absurd h (by simp)
      | ok st1 =>
          rw [hstep] at h
          rw [ih st1 st' h, pass1Step_v2_ok_sec hstep, sectAfter]

/-- C8 (amended): a register index outside [0,31] is fatal when one of
Pass 1's validators sees it — a `mov rD, rS` code-section line with
`rD > 31` aborts the whole run with a non-zero exit before any output —
but during Pass 2 macro operand parsing an out-of-range register is only a
per-line diagnostic naming the offending operand: the macro expands to
nothing and the run continues to exit 0 (see the counterexample). -/
theorem register_range_fatal_in_pass1_not_pass2 (pre post : List SrcLine)
    (rD rS r : Nat) (tbl : List (String × Nat))
    (hsec : sectAfter Sect.none pre = Sect.code)
    (hrD : 31 < rD) (hr : 31 < r) :
    assemble_v2 (pre ++ SrcLine.content "mov" [Operand.reg rD, Operand.reg rS] :: post)
        = .error () ∧
    parseMacro_v2 tbl "push" [Operand.reg r] =
      ([], ["Error: register out of range in push => " ++
            lineText "push" [Operand.reg r]]) := by
  constructor
  · unfold assemble_v2
    rw [pass1_v2_append]
    cases hpre : pass1_v2 p1Init pre with
    | error e => rfl
    | ok st1 =>
        have hcode : st1.sec = Sect.code := by
          rw [pass1_v2_ok_sec pre p1Init st1 hpre]; exact hsec
        have hbad : is_valid_instruction_v2 "mov" [Operand.reg rD, Operand.reg rS] = false := by
          simp [is_valid_instruction_v2, validOps, validate_mov]
          omega
        simp only [pass1_v2, pass1Step_v2, hcode, hbad, Bool.false_eq_true, if_false]
  · rw [parseMacro_v2]
    rw [if_neg (by decide), if_pos rfl]
    rw [if_neg (by omega)]

/-- C8 witness: `mov r32, r1` after `.code` aborts the run; `push r32` in
Pass 2 yields no output lines and one diagnostic. -/
theorem register_range_fatal_in_pass1_not_pass2_witness :
    assemble_v2 [SrcLine.directive true,
        SrcLine.content "mov" [Operand.reg 32, Operand.reg 1]] = .error () ∧
    parseMacro_v2 [] "push" [Operand.reg 32] =
      ([], ["Error: register out of range in push => " ++
            lineText "push" [Operand.reg 32]]) :=
  register_range_fatal_in_pass1_not_pass2 [SrcLine.directive true] [] 32 1 32 []
    rfl (by decide) (by decide)

/-- C8 (counterexample): on the input `.code` / `push r32`, the whole run
completes with exit status 0 — Pass 1's validators never look at `push`
registers and Pass 2's `parseMacro` only prints a diagnostic and drops the
expansion — contradicting "aborts the whole run with a non-zero exit in
every phase". -/
theorem push_r32_not_fatal :
    assemble_v2 [SrcLine.directive true, SrcLine.content "push" [Operand.reg 32]] =
      .ok ([".code"], ["Error: register out of range in push => push r32"]) := rfl

/-- C4 (amended): whenever a macro expander actually runs, the number of
lines it emits times 4 equals Pass 1's byte count for the line: both
`expandLd` drafts emit 12 lines against the 48 bytes `ld` is charged,
`push`/`pop` emit 2 lines against 8 bytes, in both drafts; and in the
second draft an `ld rD, :L` line with `L` defined is substituted and
re-dispatched to the Macro Expander, emitting 12 lines.  In the first
draft such an ld-with-label line bypasses the expander and is emitted as a
single line against the 48 bytes Pass 1 charged (see the counterexample),
so the agreement fails there. -/
theorem expansion_size_agreement (rD L : Nat) (tbl : List (String × Nat))
    (lbl : String) (addr : Nat)
    (hrD : rD ≤ 31)
    (haddr : addr < 2 ^ 64)
    (hfound : find_label tbl (trunc49 lbl) = some addr) :
    4 * (expandLd_v1_lines rD L).length =
      lineSize Sect.code (SrcLine.content "ld" [Operand.reg rD, Operand.imm (L : Int)]) ∧
    4 * (expandLd_v2_lines rD L).length = 48 ∧
    4 * (expandPush_v1_lines rD).length =
      lineSize Sect.code (SrcLine.content "push" [Operand.reg rD]) ∧
    4 * (expandPop_v1_lines rD).length =
      lineSize Sect.code (SrcLine.content "pop" [Operand.reg rD]) ∧
    4 * (expandPush_v2_lines rD).length = 8 ∧
    4 * (expandPop_v2_lines rD).length = 8 ∧
    (pass2Line_v2 tbl (SrcLine.content "ld" [Operand.reg rD, Operand.labelRef lbl])).1.length = 12 := by
  refine ⟨rfl, rfl, rfl, rfl, rfl, rfl, ?_⟩
  simp only [pass2Line_v2, firstRef, hfound, substRef]
  rw [if_pos (by decide)]
  rw [parseMacro_v2, if_pos rfl]
  rw [if_pos (by omega), if_pos hrD, if_pos (by push_cast; omega)]
  rfl

/-- C4 witness: `rD = 5`, a table binding `L` to 4096. -/
theorem expansion_size_agreement_witness :
    4 * (expandLd_v1_lines 5 9).length =
      lineSize Sect.code (SrcLine.content "ld" [Operand.reg 5, Operand.imm (9 : Int)]) ∧
    4 * (expandLd_v2_lines 5 9).length = 48 ∧
    4 * (expandPush_v1_lines 5).length =
      lineSize Sect.code (SrcLine.content "push" [Operand.reg 5]) ∧
    4 * (expandPop_v1_lines 5).length =
      lineSize Sect.code (SrcLine.content "pop" [Operand.reg 5]) ∧
    4 * (expandPush_v2_lines 5).length = 8 ∧
    4 * (expandPop_v2_lines 5).length = 8 ∧
    (pass2Line_v2 [("L", 4096)]
      (SrcLine.content "ld" [Operand.reg 5, Operand.labelRef "L"])).1.length = 12 :=
  expansion_size_agreement 5 9 [("L", 4096)] "L" 4096 (by decide) (by norm_num) rfl

/-! ## Label-name truncation (C10) -/

/-- A 50-character label name: 49 `A`s followed by `0`. -/
def longName0 : String := "AAAAAAAAAAAAAAAAAAAAAAAAAAAAAAAAAAAAAAAAAAAAAAAAA0"

/-- A 50-character label name: 49 `A`s followed by `1`; it agrees with
`longName0` on the first 49 characters. -/
def longName1 : String := "AAAAAAAAAAAAAAAAAAAAAAAAAAAAAAAAAAAAAAAAAAAAAAAAA1"

/-- C10 (counterexample): defining `longName0` at 4096 and `longName1`
(same first 49 characters) at 4100, a reference to `longName0` resolves to
4100 — the address stored for the LAST of the colliding definitions, not
the first. -/
theorem truncated_labels_resolve_to_last :
    pass1 p1Init
      [SrcLine.directive true, SrcLine.labelDef longName0,
       SrcLine.content "add" [Operand.reg 1, Operand.reg 1, Operand.reg 1],
       SrcLine.labelDef longName1] =
      .ok (P1State.mk Sect.code 4100 [(trunc49 longName0, 4100)]) ∧
    find_label [(trunc49 longName0, 4100)] (trunc49 longName0) = some 4100 ∧
    (4100 : Nat) ≠ 4096 :=
  ⟨rfl, rfl, by decide⟩

/-- C10 (amended): label definitions and references are both truncated to
their first 49 characters, so any two names agreeing on those characters
are the same symbol — and a reference to either resolves to the address of
the LAST definition of that symbol (the symbol table's documented
overwrite policy), not the first. -/
theorem truncated_labels_collide (tbl : List (String × Nat)) (n1 n2 q : String)
    (a1 a2 : Nat)
    (h12 : trunc49 n1 = trunc49 n2)
    (hq : trunc49 q = trunc49 n1) :
    find_label (add_label (add_label tbl n1 a1) n2 a2) (trunc49 q) = some a2 := by
  rw [hq, h12]
  exact find_label_add_self _ n2 a2

/-- C10 witness: the two 50-character names above, a reference to the
first. -/
theorem truncated_labels_collide_witness :
    find_label (add_label (add_label [] longName0 4096) longName1 4100)
      (trunc49 longName0) = some 4100 :=
  truncated_labels_collide [] longName0 longName1 longName0 4096 4100 rfl rfl
